import Mathlib

/-!
Verification of `src/drawio.py` (TheHeadlessSourceMan/drawIoFormat).

The development shallowly embeds the parts of `drawio.py` that the claims
touch:

* the block codec `DrawIoFile._mxDecodeBlock` / `DrawIoFile._mxEncodeBlock`
  (base64, raw deflate, percent-coding over UTF-8 byte strings);
* the envelope-splitting step of `DrawIoFile.assign`;
* the item tree (`MxItem`), its traversal `walkFileTree`, the id-lookup
  table built by `DrawIoFile._relinkAll`, and the logical accessors
  `parent`, `root`, `children`, `__getitem__`, `treeStr`.

Python values that can be `str` or `bytes` are modelled by `PyVal`; Python
exceptions by `PyErr`; machine bytes by `Nat` (always < 256 on the inputs
used here).  External library calls (`base64`, `zlib`, `urllib.parse`,
CPython's UTF-8 codec) are modelled by executable Lean functions whose doc
comments state the scope of the model.
-/

/-- Python exception classes that the code under `src/drawio.py` can raise on
the paths modelled here.  The module itself defines no exception classes, so
these are all library/builtin exceptions. -/
inductive PyErr where
  | typeError : PyErr
  | binasciiError : PyErr
  | zlibError : PyErr
  | unicodeDecodeError : PyErr
  | indexError : PyErr
deriving DecidableEq

/-- A Python value that is either a `str` or a `bytes` object. -/
inductive PyVal where
  | str : String → PyVal
  | bytes : List Nat → PyVal
deriving DecidableEq

/-- UTF-8 encoding of one character (standard 1-4 byte encoding). -/
def utf8EncodeChar (c : Char) : List Nat :=
  let n := c.toNat
  if n < 128 then [n]
  else if n < 2048 then [192 + n / 64, 128 + n % 64]
  else if n < 65536 then [224 + n / 4096, 128 + (n / 64) % 64, 128 + n % 64]
  else [240 + n / 262144, 128 + (n / 4096) % 64, 128 + (n / 64) % 64, 128 + n % 64]

/-- Models Python `s.encode('utf-8')`: the UTF-8 bytes of a string. -/
def utf8Encode (s : String) : List Nat :=
  s.data.foldr (fun c acc => utf8EncodeChar c ++ acc) []

/-- Strict UTF-8 decoding loop, fuelled (fuel `length + 1` always suffices
since every step consumes at least one byte).  Models CPython's strict
`bytes.decode('utf-8')`: continuation bytes are checked, overlong encodings
and surrogate code points are rejected. -/
def utf8DecodeLoop : Nat → List Nat → Except PyErr (List Char)
  | _, [] => .ok []
  | 0, _ :: _ => .error .unicodeDecodeError
  | fuel + 1, b :: rest =>
    if b < 128 then
      match utf8DecodeLoop fuel rest with
      | .error e => .error e
      | .ok cs => .ok (Char.ofNat b :: cs)
    else if b < 194 then .error .unicodeDecodeError
    else if b < 224 then
      match rest with
      | b1 :: rest1 =>
        if 128 ≤ b1 ∧ b1 < 192 then
          match utf8DecodeLoop fuel rest1 with
          | .error e => .error e
          | .ok cs => .ok (Char.ofNat ((b - 192) * 64 + (b1 - 128)) :: cs)
        else .error .unicodeDecodeError
      | [] => .error .unicodeDecodeError
    else if b < 240 then
      match rest with
      | b1 :: b2 :: rest2 =>
        if (128 ≤ b1 ∧ b1 < 192) ∧ (128 ≤ b2 ∧ b2 < 192)
            ∧ (b ≠ 224 ∨ 160 ≤ b1) ∧ (b ≠ 237 ∨ b1 < 160) then
          match utf8DecodeLoop fuel rest2 with
          | .error e => .error e
          | .ok cs =>
            .ok (Char.ofNat ((b - 224) * 4096 + (b1 - 128) * 64 + (b2 - 128)) :: cs)
        else .error .unicodeDecodeError
      | _ => .error .unicodeDecodeError
    else if b < 245 then
      match rest with
      | b1 :: b2 :: b3 :: rest3 =>
        if (128 ≤ b1 ∧ b1 < 192) ∧ (128 ≤ b2 ∧ b2 < 192) ∧ (128 ≤ b3 ∧ b3 < 192)
            ∧ (b ≠ 240 ∨ 144 ≤ b1) ∧ (b ≠ 244 ∨ b1 < 144) then
          match utf8DecodeLoop fuel rest3 with
          | .error e => .error e
          | .ok cs =>
            .ok (Char.ofNat ((b - 240) * 262144 + (b1 - 128) * 4096
              + (b2 - 128) * 64 + (b3 - 128)) :: cs)
        else .error .unicodeDecodeError
      | _ => .error .unicodeDecodeError
    else .error .unicodeDecodeError

/-- Models Python `b.decode('utf-8')` (strict): raises
`UnicodeDecodeError` on invalid UTF-8. -/
def utf8Decode (bs : List Nat) : Except PyErr String :=
  match utf8DecodeLoop (bs.length + 1) bs with
  | .error e => .error e
  | .ok cs => .ok (String.mk cs)

/-- Lenient UTF-8 decoding with U+FFFD replacement, fuelled.  Models
`bytes.decode('utf-8', errors='replace')` as used inside `urllib.parse
.unquote`; exact on valid sequences and on isolated invalid bytes (the only
shapes exercised here — the number of replacement characters emitted for a
multi-byte truncated sequence may differ from CPython). -/
def utf8ReplaceLoop : Nat → List Nat → List Char
  | _, [] => []
  | 0, _ :: _ => []
  | fuel + 1, b :: rest =>
    if b < 128 then Char.ofNat b :: utf8ReplaceLoop fuel rest
    else if 194 ≤ b ∧ b < 224 then
      match rest with
      | b1 :: rest1 =>
        if 128 ≤ b1 ∧ b1 < 192 then
          Char.ofNat ((b - 192) * 64 + (b1 - 128)) :: utf8ReplaceLoop fuel rest1
        else Char.ofNat 65533 :: utf8ReplaceLoop fuel rest
      | [] => [Char.ofNat 65533]
    else if 224 ≤ b ∧ b < 240 then
      match rest with
      | b1 :: b2 :: rest2 =>
        if (128 ≤ b1 ∧ b1 < 192) ∧ (128 ≤ b2 ∧ b2 < 192)
            ∧ (b ≠ 224 ∨ 160 ≤ b1) ∧ (b ≠ 237 ∨ b1 < 160) then
          Char.ofNat ((b - 224) * 4096 + (b1 - 128) * 64 + (b2 - 128))
            :: utf8ReplaceLoop fuel rest2
        else Char.ofNat 65533 :: utf8ReplaceLoop fuel rest
      | _ => [Char.ofNat 65533]
    else if 240 ≤ b ∧ b < 245 then
      match rest with
      | b1 :: b2 :: b3 :: rest3 =>
        if (128 ≤ b1 ∧ b1 < 192) ∧ (128 ≤ b2 ∧ b2 < 192) ∧ (128 ≤ b3 ∧ b3 < 192)
            ∧ (b ≠ 240 ∨ 144 ≤ b1) ∧ (b ≠ 244 ∨ b1 < 144) then
          Char.ofNat ((b - 240) * 262144 + (b1 - 128) * 4096 + (b2 - 128) * 64
            + (b3 - 128)) :: utf8ReplaceLoop fuel rest3
        else Char.ofNat 65533 :: utf8ReplaceLoop fuel rest
      | _ => [Char.ofNat 65533]
    else Char.ofNat 65533 :: utf8ReplaceLoop fuel rest

/-- Value of one hexadecimal digit character, if any (both cases accepted,
as in CPython's percent-escape parsing). -/
def hexDigitVal (c : Char) : Option Nat :=
  let n := c.toNat
  if 48 ≤ n ∧ n ≤ 57 then some (n - 48)
  else if 65 ≤ n ∧ n ≤ 70 then some (n - 55)
  else if 97 ≤ n ∧ n ≤ 102 then some (n - 87)
  else none

/-- Percent-escape scanner: a `%` followed by two hex digits becomes that
byte, any other character contributes its UTF-8 bytes (an invalid escape
keeps its literal `%`).  Models the byte-accumulation phase of
`urllib.parse.unquote`. -/
def percentToBytes : List Char → List Nat
  | [] => []
  | '%' :: a :: b :: rest =>
    match hexDigitVal a, hexDigitVal b with
    | some x, some y => (x * 16 + y) :: percentToBytes rest
    | _, _ => utf8EncodeChar '%' ++ percentToBytes (a :: b :: rest)
  | c :: rest => utf8EncodeChar c ++ percentToBytes rest

/-- Models `urllib.parse.unquote(s)`: decode percent-escapes to bytes, then
decode the bytes as UTF-8 with `errors='replace'`.  Note this function is
TOTAL — it never raises, invalid escapes pass through as literal text. -/
def unquote (s : String) : String :=
  String.mk (utf8ReplaceLoop ((percentToBytes s.data).length + 1) (percentToBytes s.data))

/-- Bytes that `urllib.parse.quote` leaves unescaped with the default
`safe='/'`: ASCII letters, digits, `_.-~` and `/`. -/
def quoteSafeByte (b : Nat) : Bool :=
  (48 ≤ b && b ≤ 57) || (65 ≤ b && b ≤ 90) || (97 ≤ b && b ≤ 122)
    || b == 45 || b == 46 || b == 47 || b == 95 || b == 126

/-- Upper-case hexadecimal digit character of a value < 16. -/
def hexUpper (n : Nat) : Char :=
  if n < 10 then Char.ofNat (48 + n) else Char.ofNat (55 + n)

/-- Models `urllib.parse.quote(s)` (default `safe='/'`): UTF-8 encode and
percent-escape every byte outside the safe set. -/
def quote (s : String) : String :=
  String.mk ((utf8Encode s).foldr
    (fun b acc =>
      (if quoteSafeByte b then [Char.ofNat b] else ['%', hexUpper (b / 16), hexUpper (b % 16)])
        ++ acc) [])

/-- Six-bit value of a standard-alphabet base64 byte, if any. -/
def b64Val (b : Nat) : Option Nat :=
  if 65 ≤ b ∧ b ≤ 90 then some (b - 65)
  else if 97 ≤ b ∧ b ≤ 122 then some (b - 71)
  else if 48 ≤ b ∧ b ≤ 57 then some (b + 4)
  else if b = 43 then some 62
  else if b = 47 then some 63
  else none

/-- Standard-alphabet base64 byte of a six-bit value. -/
def b64Chr (n : Nat) : Nat :=
  if n < 26 then 65 + n
  else if n < 52 then 97 + n - 26
  else if n < 62 then 48 + n - 52
  else if n = 62 then 43
  else 47

/-- Regroup a list of six-bit values into bytes (4 values to 3 bytes); a
single leftover value is a malformed tail. -/
def b64DecodeVals : List Nat → Except PyErr (List Nat)
  | [] => .ok []
  | [_] => .error .binasciiError
  | [a, b] => .ok [a * 4 + b / 16]
  | [a, b, c] => .ok [a * 4 + b / 16, (b % 16) * 16 + c / 4]
  | a :: b :: c :: d :: rest =>
    match b64DecodeVals rest with
    | .error e => .error e
    | .ok more => .ok ([a * 4 + b / 16, (b % 16) * 16 + c / 4, (c % 4) * 64 + d] ++ more)

/-- Models `base64.b64decode` (default non-validating mode): bytes outside
the alphabet and padding are discarded, the kept length must be a multiple
of 4 (otherwise `binascii.Error`, e.g. for a truncated input), data stops at
the first `=` padding byte. -/
def b64decode (bs : List Nat) : Except PyErr (List Nat) :=
  let kept := bs.filter (fun b => (b64Val b).isSome || b == 61)
  if kept.length % 4 ≠ 0 then .error .binasciiError
  else b64DecodeVals ((kept.takeWhile (fun b => b ≠ 61)).filterMap b64Val)

/-- Models `base64.b64encode`: standard alphabet with `=` padding. -/
def b64encode : List Nat → List Nat
  | [] => []
  | [a] => [b64Chr (a / 4), b64Chr ((a % 4) * 16), 61, 61]
  | [a, b] => [b64Chr (a / 4), b64Chr ((a % 4) * 16 + b / 16), b64Chr ((b % 16) * 4), 61]
  | a :: b :: c :: rest =>
    [b64Chr (a / 4), b64Chr ((a % 4) * 16 + b / 16), b64Chr ((b % 16) * 4 + c / 64),
      b64Chr (c % 64)] ++ b64encode rest

/-- Raw-DEFLATE decompression loop, fuelled (each iteration consumes at
least one byte, so fuel `length + 1` suffices).  Models
`zlib.decompress(s, wbits=-15)` on streams made of STORED (uncompressed)
blocks: block type 0 is decoded exactly as zlib does (LEN/NLEN complement
check, truncation check), the reserved block type 3 raises `zlib.error` as
zlib does.  Huffman block types 1 and 2 are outside the model and also map
to the error case; no input used in this development contains them. -/
def inflateLoop : Nat → List Nat → Except PyErr (List Nat)
  | 0, _ => .error .zlibError
  | fuel + 1, bs =>
    match bs with
    | [] => .error .zlibError
    | h :: rest =>
      let bfinal := h % 2
      let btype := (h / 2) % 4
      if btype = 0 then
        match rest with
        | l0 :: l1 :: n0 :: n1 :: rest2 =>
          let len := l0 + 256 * l1
          let nlen := n0 + 256 * n1
          if len + nlen ≠ 65535 then .error .zlibError
          else if rest2.length < len then .error .zlibError
          else if bfinal = 1 then .ok (rest2.take len)
          else
            match inflateLoop fuel (rest2.drop len) with
            | .error e => .error e
            | .ok more => .ok (rest2.take len ++ more)
        | _ => .error .zlibError
      else .error .zlibError

/-- Raw-DEFLATE decompression, see `inflateLoop`. -/
def inflateRaw (bs : List Nat) : Except PyErr (List Nat) :=
  inflateLoop (bs.length + 1) bs

/-- One STORED deflate block: header byte, LEN, NLEN (ones complement of
LEN), then the literal data. -/
def mkStoredBlock (final : Nat) (c : List Nat) : List Nat :=
  final :: (c.length % 256) :: (c.length / 256)
    :: ((65535 - c.length) % 256) :: ((65535 - c.length) / 256) :: c

/-- STORED-block emitter, fuelled by the number of chunks. -/
def deflateChunks : Nat → List Nat → List Nat
  | 0, bs => mkStoredBlock 1 bs
  | fuel + 1, bs =>
    if bs.length ≤ 65535 then mkStoredBlock 1 bs
    else mkStoredBlock 0 (bs.take 65535) ++ deflateChunks fuel (bs.drop 65535)

/-- Models a raw-DEFLATE compressor (`zlib.compress(..., wbits=-15)`) by
emitting STORED blocks; `inflateRaw` inverts it.  Unreachable in practice:
`_mxEncodeBlock` raises before any bytes reach the compressor. -/
def deflateRaw (bs : List Nat) : List Nat :=
  deflateChunks bs.length bs

/-- Models `zlib.compress(b, wbits=-15)`: a `str` argument is not a
bytes-like object and raises `TypeError` (on every CPython version; before
3.11 the `wbits` keyword itself is also rejected with `TypeError`). -/
def zlibCompress : PyVal → Except PyErr PyVal
  | .str _ => .error .typeError
  | .bytes bs => .ok (.bytes (deflateRaw bs))

/-- Models `base64.b64encode(b)`: requires a bytes-like object, returns
`bytes`. -/
def b64encodeVal : PyVal → Except PyErr PyVal
  | .str _ => .error .typeError
  | .bytes bs => .ok (.bytes (b64encode bs))

/-- The `isinstance(b,str)` branch of `_mxDecodeBlock`: a `str` input is
first encoded to UTF-8 bytes. -/
def pyvalBytes : PyVal → List Nat
  | .str s => utf8Encode s
  | .bytes bs => bs

/-- Embedding of `DrawIoFile._mxDecodeBlock` (src/drawio.py lines 191-207):
`s=base64.b64decode(b)`, `b=zlib.decompress(s,wbits=-15)`,
`s=unquote(b.decode('utf-8'))`. -/
def mxDecodeBlock (v : PyVal) : Except PyErr String :=
  match b64decode (pyvalBytes v) with
  | .error e => .error e
  | .ok s =>
    match inflateRaw s with
    | .error e => .error e
    | .ok b =>
      match utf8Decode b with
      | .error e => .error e
      | .ok s2 => .ok (unquote s2)

/-- Embedding of `DrawIoFile._mxEncodeBlock` (src/drawio.py lines 209-216):
`b=quote(s)` (a `str`), `b=zlib.compress(b,wbits=-15)`,
`s=base64.b64encode(b)`. -/
def mxEncodeBlock (s : String) : Except PyErr PyVal :=
  match zlibCompress (.str (quote s)) with
  | .error e => .error e
  | .ok b => b64encodeVal b

/-- The round trip `_mxDecodeBlock(_mxEncodeBlock(x))` of the claim. -/
def mxRoundTrip (s : String) : Except PyErr String :=
  match mxEncodeBlock s with
  | .error e => .error e
  | .ok v => mxDecodeBlock v

/-- Python `str.join`: `sep.join(l)`; empty on the empty list, otherwise the
elements interleaved with `sep`. -/
def pyJoin (sep : String) : List String → String
  | [] => ""
  | x :: rest => rest.foldl (fun acc y => acc ++ sep ++ y) x

/-- Is `sep` a prefix of `s` (character lists)? -/
def charsPrefix : List Char → List Char → Bool
  | [], _ => true
  | _ :: _, [] => false
  | a :: as, b :: bs => a == b && charsPrefix as bs

/-- Splitting loop for Python `str.split(sep)` with a non-empty separator,
fuelled (one character is consumed per step, so fuel `length + 1`
suffices). -/
def splitChunks (sep : List Char) : Nat → List Char → List Char → List (List Char)
  | _, acc, [] => [acc.reverse]
  | 0, acc, rest => [acc.reverse ++ rest]
  | fuel + 1, acc, c :: rest =>
    if charsPrefix sep (c :: rest) then
      acc.reverse :: splitChunks sep fuel [] (List.drop sep.length (c :: rest))
    else splitChunks sep fuel (c :: acc) rest

/-- Models Python `s.split(sep)` for a non-empty `sep`: non-overlapping
left-to-right matches, `''.split(sep) == ['']`. -/
def pySplit (s sep : String) : List String :=
  if sep.data.isEmpty then [s]
  else (splitChunks sep.data (s.data.length + 1) [] s.data).map String.mk

/-- Models Python `s.split(sep, 1)`: at most one split, the remainder keeps
its further separators. -/
def pySplitOnce (s sep : String) : List String :=
  match pySplit s sep with
  | [] => [s]
  | [a] => [a]
  | a :: rest => [a, pyJoin sep rest]

/-- Loop body of `DrawIoFile.assign` for the chunks after the first
(src/drawio.py lines 254-263): `mxs=mx.split('>',1)` then
`mxs[1].split('</diagram>',1)`, the payload is decoded with
`_mxDecodeBlock`, and `mxs[1]` raises `IndexError` whenever a split found
no separator.  The `keep` flag is `keepMxfileTag`. -/
def envRest (keep : Bool) : List String → Except PyErr (List String)
  | [] => .ok []
  | mx :: rest =>
    let mxs := pySplitOnce mx ">"
    match mxs[1]? with
    | none => .error .indexError
    | some tail =>
      let mxs2 := pySplitOnce tail "</diagram>"
      match mxs2[1]? with
      | none => .error .indexError
      | some after =>
        match mxDecodeBlock (.str (mxs2.headD "")) with
        | .error e => .error e
        | .ok payload =>
          match envRest keep rest with
          | .error e => .error e
          | .ok more =>
            .ok ((if keep then [mxs.headD "", ">"] else []) ++ [payload]
              ++ (if keep then ["</diagram>"] else []) ++ [after] ++ more)

/-- Embedding of the envelope-splitting step of `DrawIoFile.assign`
(src/drawio.py lines 245-264, the `if encoded:` block): the value of `s`
handed to `lxml.etree.fromstring` afterwards.  The first chunk of
`s.split('<diagram')` is emitted followed by `'<diagram'` when
`keepMxfileTag` holds — unconditionally, even when the split found no
marker at all. -/
def assignEnvelopeText (keep : Bool) (s : String) : Except PyErr String :=
  match pySplit s "<diagram" with
  | [] => .ok ""
  | first :: rest =>
    match envRest keep rest with
    | .error e => .error e
    | .ok parts =>
      .ok (pyJoin "" (([first] ++ (if keep then ["<diagram"] else [])) ++ parts))

/-- An xml element as the embedding sees it: its tag name and its attribute
dictionary (`lxml` attribute lookup is by key; first match wins, keys are
unique in parsed xml). -/
structure MxTag where
  tag : String
  attrib : List (String × String)
deriving DecidableEq

/-- Models `attrib.get(k)` on an attribute dictionary. -/
def attribGet (a : List (String × String)) (k : String) : Option String :=
  match a.find? (fun p => p.1 == k) with
  | some p => some p.2
  | none => none

/-- The `id` attribute of an item: `MxItem.mxId` / `MxItem.id`
(src/drawio.py lines 34-45). -/
def mxIdOf (t : MxTag) : Option String :=
  attribGet t.attrib "id"

/-- An `MxItem` tree shaped by the `_fileChildren` lists: each node carries
its xml tag and its physical children. -/
inductive FileTree where
  | node : MxTag → List FileTree → FileTree

mutual

/-- Embedding of `MxItem.walkFileTree` (src/drawio.py lines 128-134):
depth-first, yield self then recurse over `fileChildren`. -/
def walkFileTree : FileTree → List MxTag
  | .node t cs => t :: walkForest cs

/-- The forest part of `walkFileTree`. -/
def walkForest : List FileTree → List MxTag
  | [] => []
  | c :: cs => walkFileTree c ++ walkForest cs

end

/-- Embedding of `MxItem.__init__` (src/drawio.py lines 15-25): the private
`_xmlTag` field is assigned directly — the `xmlTag` property setter (which
would build child items) is never invoked — so `_fileChildren` is `[]`. -/
def mkItemInit (tag : MxTag) : FileTree :=
  .node tag []

/-- The xml tree produced by `lxml.etree.fromstring`. -/
inductive XmlTree where
  | node : MxTag → List XmlTree → XmlTree

/-- The tag of an xml element. -/
def xmlTagOf : XmlTree → MxTag
  | .node t _ => t

/-- The item-tree construction step of `DrawIoFile.assign` (src/drawio.py
line 266): `self._itemTree=MxItem(None,self._etree[0][0][0])`, where the
argument is the already-indexed xml sub-element. -/
def assignItemTree (sub : XmlTree) : FileTree :=
  mkItemInit (xmlTagOf sub)

/-- Python `dict` assignment `d[k]=v` on an association list with unique
keys: replace in place when the key exists, else append. -/
def dictSet : List (Option String × MxTag) → Option String → MxTag →
    List (Option String × MxTag)
  | [], k, v => [(k, v)]
  | p :: rest, k, v => if p.1 = k then (k, v) :: rest else p :: dictSet rest k v

/-- Python `dict.get(k)` on the association list. -/
def dictLookup (d : List (Option String × MxTag)) (k : Option String) : Option MxTag :=
  match d with
  | [] => none
  | p :: rest => if p.1 = k then some p.2 else dictLookup rest k

/-- Number of entries of the table carrying a given key. -/
def countKey (d : List (Option String × MxTag)) (k : Option String) : Nat :=
  match d with
  | [] => 0
  | p :: rest => (if p.1 = k then 1 else 0) + countKey rest k

/-- One iteration of the first `_relinkAll` loop (src/drawio.py line 277):
`self._itemLookup[item.id]=item` — note the key is `item.id`, which is
`None` for an item without an `id` attribute. -/
def lookupStep (d : List (Option String × MxTag)) (it : MxTag) :
    List (Option String × MxTag) :=
  dictSet d (mxIdOf it) it

/-- Embedding of the index-building pass of `DrawIoFile._relinkAll`
(src/drawio.py lines 275-277): walk the item tree and insert every item
under its `id` key. -/
def buildLookup (t : FileTree) : List (Option String × MxTag) :=
  (walkFileTree t).foldl lookupStep []

/-- The number of walked items whose `id` attribute equals `k`. -/
def countMatchId (k : Option String) (items : List MxTag) : Nat :=
  (items.filter (fun it => decide (mxIdOf it = k))).length

/-- The last walked item whose `id` attribute equals `k`, if any. -/
def lastMatch (k : Option String) : List MxTag → Option MxTag
  | [] => none
  | it :: rest =>
    match lastMatch k rest with
    | some x => some x
    | none => if mxIdOf it = k then some it else none

/-- Resolution of an item's logical parent inside `_relinkAll`: the
`parent` attribute looked up through the freshly built table, exactly what
the first access to `MxItem.parent` (src/drawio.py lines 94-107) computes
for an item whose `_parent` cache is still `None`. -/
def resolveParent (d : List (Option String × MxTag)) (it : MxTag) : Option MxTag :=
  match attribGet it.attrib "parent" with
  | none => none
  | some pid => dictLookup d (some pid)

/-- Embedding of the second `_relinkAll` loop (src/drawio.py lines
279-281): for each table value in insertion order, if its parent resolves,
record the (parent, child) append `item.parent._children.append(item)`; an
unresolved parent is silently skipped — the loop has no raise path. -/
def relinkLinks (t : FileTree) : List (MxTag × MxTag) :=
  ((buildLookup t).map (fun p => p.2)).filterMap (fun it =>
    match resolveParent (buildLookup t) it with
    | none => none
    | some p => some (p, it))

/-- The mutable state of one `MxItem` object, addressed by its arena index
in a world `List MxRec`.  Fields mirror `MxItem.__init__` (src/drawio.py
lines 15-25): `tag`/`attrib` are the wrapped xml tag, `parentCache` is
`_parent`, `rootCache` is `_root`, `childrenCache` is `_children`,
`fileChildren` is `_fileChildren` (all object references become arena
indices). -/
structure MxRec where
  tag : String
  attrib : List (String × String)
  parentCache : Option Nat
  rootCache : Option Nat
  childrenCache : List Nat
  fileChildren : List Nat
deriving DecidableEq

/-- Embedding of `MxItem.__init__` on a fresh item at arena index
`selfIdx`: `_fileChildren=[]`, `_parent=None`, `_children=[]`,
`_root=self` — the root cache is seeded with the item itself, not with
`None`. -/
def mkMxRec (selfIdx : Nat) (tag : String) (attrib : List (String × String)) : MxRec :=
  { tag := tag, attrib := attrib, parentCache := none, rootCache := some selfIdx,
    childrenCache := [], fileChildren := [] }

/-- The `id` attribute of the item at a handle (`self._parent.id` reads
this through the cached reference). -/
def idOfHandle (w : List MxRec) (h : Nat) : Option String :=
  match w[h]? with
  | none => none
  | some st => attribGet st.attrib "id"

/-- Embedding of `MxItem.name` (src/drawio.py lines 47-55): the tag, or
`tag "value"` when a `value` attribute is present. -/
def nameOf (st : MxRec) : String :=
  match attribGet st.attrib "value" with
  | none => st.tag
  | some v => st.tag ++ " \"" ++ v ++ "\""

/-- `nameOf` through a handle. -/
def nameOfHandle (w : List MxRec) (h : Nat) : String :=
  match w[h]? with
  | none => ""
  | some st => nameOf st

/-- The recompute-and-store arm of the `MxItem.parent` property: resolve
the `parent` attribute through `self.fileRoot.lookupId` and store the
result in `_parent`. -/
def parentRecompute (lookup : String → Option Nat) (w : List MxRec) (self : Nat)
    (st : MxRec) (parentId : Option String) : Option Nat × List MxRec :=
  let newP := match parentId with
    | none => none
    | some pid => lookup pid
  (newP, w.set self { st with parentCache := newP })

/-- Embedding of the `MxItem.parent` property (src/drawio.py lines 94-107):
`parentId=self._xmlTag.attrib.get('parent')`; recompute when `_parent` is
`None` or the cached parent's `id` differs from `parentId`, else return the
cache untouched.  `lookup` is `self.fileRoot.lookupId`, the owning
`DrawIoFile`'s id table. -/
def parentGet (lookup : String → Option Nat) (w : List MxRec) (self : Nat) :
    Option Nat × List MxRec :=
  match w[self]? with
  | none => (none, w)
  | some st =>
    let parentId := attribGet st.attrib "parent"
    match st.parentCache with
    | none => parentRecompute lookup w self st parentId
    | some c =>
      if idOfHandle w c = parentId then (st.parentCache, w)
      else parentRecompute lookup w self st parentId

/-- Embedding of the `MxItem.root` property (src/drawio.py lines 81-92),
fuelled against unproductive parent chains: if `_root` is `None`, walk to
`self.parent` and adopt its `root`, else return the cache.  Since
`__init__` seeds `_root` with the item itself, the `None` branch is dead on
items created by this code. -/
def rootGet (lookup : String → Option Nat) : Nat → Nat → List MxRec →
    Option Nat × List MxRec
  | 0, _, w => (none, w)
  | fuel + 1, self, w =>
    match w[self]? with
    | none => (none, w)
    | some st =>
      match st.rootCache with
      | some r => (some r, w)
      | none =>
        let pw := parentGet lookup w self
        match pw.1 with
        | none => (none, pw.2)
        | some pi =>
          let rr := rootGet lookup fuel pi pw.2
          let w3 := match rr.2[self]? with
            | none => rr.2
            | some st2 => rr.2.set self { st2 with rootCache := rr.1 }
          (rr.1, w3)

/-- Embedding of the `MxItem.children` property (src/drawio.py lines
109-117): the physical children when `_children` is empty AND the printable
name is `'root'`, else the logical `_children` list. -/
def childrenGet (w : List MxRec) (self : Nat) : List Nat :=
  match w[self]? with
  | none => []
  | some st =>
    if st.childrenCache = [] ∧ nameOf st = "root" then st.fileChildren
    else st.childrenCache

/-- Embedding of `MxItem.__getitem__` (src/drawio.py lines 122-126):
`_=self.children` (the property read has no side effect), then
`self._children[idx]` — indexing the raw `_children` list, **without** the
root fallback of the `children` property; an out-of-range index raises
`IndexError`. -/
def getitemIdx (w : List MxRec) (self : Nat) (idx : Nat) : Except PyErr Nat :=
  match w[self]? with
  | none => .error .indexError
  | some st =>
    match st.childrenCache[idx]? with
    | some h => .ok h
    | none => .error .indexError

/-- Sequence a list of optional results: `none` as soon as one member is
`none` (a diverging recursive call poisons the whole loop). -/
def seqOptions : List (Option String) → Option (List String)
  | [] => some []
  | o :: rest =>
    match o, seqOptions rest with
    | some s, some l => some (s :: l)
    | _, _ => none

/-- Embedding of `MxItem.treeStr` (src/drawio.py lines 147-160), fuelled
(`none` = the recursion exceeds every bound, i.e. the Python code
recurses without terminating).  Faithful to the source's branching:
when `ignore is None` the set is created — and the function returns
WITHOUT recursing; when `self in ignore` a `'...'` marker is appended;
otherwise it recurses into `children` passing `ignore` along UNCHANGED (no
node is ever added to the set).  `indent.join(ret)` uses the already
extended indent. -/
def treeStr {α : Type} [DecidableEq α] (name : α → String) (children : α → List α) :
    Nat → α → String → Option (List α) → Option String
  | 0, _, _, _ => none
  | fuel + 1, self, indent, ignore =>
    let ret := [indent ++ name self]
    let ind2 := indent ++ "   "
    match ignore with
    | none => some (pyJoin ind2 ret)
    | some ig =>
      if self ∈ ig then some (pyJoin ind2 (ret ++ ["..."]))
      else
        match seqOptions ((children self).map
            (fun c => treeStr name children fuel c ind2 (some ig))) with
        | none => none
        | some rs => some (pyJoin ind2 (ret ++ rs))

/-- Embedding of `DrawIoFile.treeStr` (src/drawio.py lines 174-179):
`self._itemTree[0].treeStr(indent,ignore)` — `__getitem__` on the item tree
root first, then the item-level `treeStr`. -/
def drawIoTreeStr (w : List MxRec) (itemTree : Nat) (fuel : Nat) (indent : String)
    (ignore : Option (List Nat)) : Except PyErr (Option String) :=
  match getitemIdx w itemTree 0 with
  | .error e => .error e
  | .ok h => .ok (treeStr (nameOfHandle w) (childrenGet w) fuel h indent ignore)

/-- A document root element carrying no `id` attribute (such as the
synthetic `<root>` element of a draw.io file). -/
def exTagNoId : MxTag :=
  { tag := "root", attrib := [] }

/-- An element whose `parent` attribute names an id (`"999"`) that no
element of the document has. -/
def tagDangling : MxTag :=
  { tag := "mxCell", attrib := [("id", "1"), ("parent", "999")] }

/-- A one-element document whose only element has the dangling parent
reference `parent="999"`. -/
def tDangling : FileTree :=
  .node tagDangling []

/-- Item A of the logical two-cycle: `id="a"`, `parent="b"`; after the
relink pass its `_children` list holds B (handle 1), exactly as
`_relinkAll` appends it. -/
def recCycleA : MxRec :=
  { tag := "mxCell", attrib := [("id", "a"), ("parent", "b")], parentCache := none,
    rootCache := some 0, childrenCache := [1], fileChildren := [] }

/-- Item B of the logical two-cycle: `id="b"`, `parent="a"`; its
`_children` list holds A (handle 0). -/
def recCycleB : MxRec :=
  { tag := "mxCell", attrib := [("id", "b"), ("parent", "a")], parentCache := none,
    rootCache := some 1, childrenCache := [0], fileChildren := [] }

/-- The two-element world A <-> B with mutually cyclic logical children. -/
def wCycle : List MxRec :=
  [recCycleA, recCycleB]

/-- A fresh item with `id="a"` and no `parent` attribute, at handle 0. -/
def recTopA : MxRec :=
  mkMxRec 0 "mxCell" [("id", "a")]

/-- A fresh item with `id="b"` and `parent="a"`, at handle 1. -/
def recChildB : MxRec :=
  mkMxRec 1 "mxCell" [("id", "b"), ("parent", "a")]

/-- World for the `root` accessor scenario: A is the top of B's logical
parent chain. -/
def wRoot : List MxRec :=
  [recTopA, recChildB]

/-- The id table of `wRoot` (`DrawIoFile.lookupId`). -/
def lkRoot : String → Option Nat :=
  fun s => if s = "a" then some 0 else if s = "b" then some 1 else none

/-- Handle 0 of the parent-cache world: element with `id="a"`. -/
def recParA : MxRec :=
  mkMxRec 0 "mxCell" [("id", "a")]

/-- Handle 1 of the parent-cache world: element with `id="b"`. -/
def recParB : MxRec :=
  mkMxRec 1 "mxCell" [("id", "b")]

/-- Handle 2 of the parent-cache world: its `parent` attribute has been
mutated to `"b"` while `_parent` still caches handle 0 (the element with
`id="a"` that a previous access resolved). -/
def recParC : MxRec :=
  { tag := "mxCell", attrib := [("id", "c"), ("parent", "b")], parentCache := some 0,
    rootCache := some 2, childrenCache := [], fileChildren := [] }

/-- Handle 3 of the parent-cache world: `parent="b"` with `_parent` already
caching handle 1, whose id still matches. -/
def recParD : MxRec :=
  { tag := "mxCell", attrib := [("id", "d"), ("parent", "b")], parentCache := some 1,
    rootCache := some 3, childrenCache := [], fileChildren := [] }

/-- World for the parent-cache invalidation scenario. -/
def wPar : List MxRec :=
  [recParA, recParB, recParC, recParD]

/-- The id table of `wPar`. -/
def lkPar : String → Option Nat :=
  fun s =>
    if s = "a" then some 0 else if s = "b" then some 1
    else if s = "c" then some 2 else if s = "d" then some 3 else none

/-- A `<root>` item (printable name `'root'`) whose logical `_children`
list is empty while its physical `_fileChildren` list holds handle 1. -/
def recRootNode : MxRec :=
  { tag := "root", attrib := [], parentCache := none, rootCache := some 0,
    childrenCache := [], fileChildren := [1] }

/-- The physical child under the `<root>` item. -/
def recRootChild : MxRec :=
  mkMxRec 1 "mxCell" [("id", "x")]

/-- World for the `children` / `__getitem__` asymmetry scenario. -/
def wRootDoc : List MxRec :=
  [recRootNode, recRootChild]

/-- Lookup after a dict assignment: the assigned key now maps to the new
value, every other key is untouched. -/
theorem dictLookup_dictSet (d : List (Option String × MxTag)) (k : Option String)
    (v : MxTag) (k' : Option String) :
    dictLookup (dictSet d k v) k' = if k' = k then some v else dictLookup d k' := by
  induction d with
  | nil =>
    by_cases h : k' = k
    · subst h; simp [dictSet, dictLookup]
    · have h' : ¬ k = k' := fun hh => h hh.symm
      simp [dictSet, dictLookup, h, h']
  | cons p rest ih =>
    by_cases h1 : p.1 = k
    · by_cases h2 : k' = k
      · subst h2; simp [dictSet, dictLookup, h1]
      · have h3 : ¬ p.1 = k' := fun hh => h2 (by rw [← hh, h1])
        have h4 : ¬ k = k' := fun hh => h2 hh.symm
        simp [dictSet, dictLookup, h1, h2, h3, h4]
    · by_cases h2 : k' = k
      · subst h2
        simp [dictSet, dictLookup, h1, ih, fun hh => h1 (Eq.symm hh)]
      · by_cases h3 : p.1 = k'
        · simp [dictSet, dictLookup, h1, h2, h3, ih]
        · simp [dictSet, dictLookup, h1, h2, h3, ih]

/-- Entry count after a dict assignment: the assigned key has exactly one
entry if it had none, its count is preserved otherwise, and other keys are
untouched. -/
theorem countKey_dictSet (d : List (Option String × MxTag)) (k : Option String)
    (v : MxTag) (k' : Option String) :
    countKey (dictSet d k v) k' =
      if k' = k then (if countKey d k = 0 then 1 else countKey d k)
      else countKey d k' := by
  induction d with
  | nil =>
    by_cases h : k' = k
    · subst h; simp [dictSet, countKey]
    · have h' : ¬ k = k' := fun hh => h hh.symm
      simp [dictSet, countKey, h, h']
  | cons p rest ih =>
    by_cases h1 : p.1 = k
    · by_cases h2 : k' = k
      · subst h2; simp [dictSet, countKey, h1]
      · have h3 : ¬ p.1 = k' := fun hh => h2 (by rw [← hh, h1])
        simp [dictSet, countKey, h1, h2, h3]
    · by_cases h2 : k' = k
      · subst h2
        have h3 : ¬ p.1 = k' := h1
        simp [dictSet, countKey, h1, h3, ih]
      · by_cases h3 : p.1 = k'
        · simp [dictSet, countKey, h1, h2, h3, ih]
        · simp [dictSet, countKey, h1, h2, h3, ih]

/-- Folding the index-building step over a list of items: lookup at `k`
yields the LAST item whose id is `k`, falling back to the accumulator. -/
theorem dictLookup_foldl (items : List MxTag) (k : Option String) :
    ∀ d, dictLookup (items.foldl lookupStep d) k =
      match lastMatch k items with
      | some x => some x
      | none => dictLookup d k := by
  induction items with
  | nil => intro d; simp [lastMatch]
  | cons it rest ih =>
    intro d
    simp only [List.foldl_cons]
    rw [ih (lookupStep d it)]
    cases hr : lastMatch k rest with
    | some x => simp [lastMatch, hr]
    | none =>
      by_cases hk : mxIdOf it = k
      · simp [lastMatch, hr, hk, lookupStep, dictLookup_dictSet, eq_comm]
      · have hk2 : ¬ k = mxIdOf it := fun hh => hk (Eq.symm hh)
        simp [lastMatch, hr, hk, hk2, lookupStep, dictLookup_dictSet]

/-- Folding the index-building step over a list of items: the entry count
at `k` becomes exactly one as soon as some item carries id `k`. -/
theorem countKey_foldl (items : List MxTag) (k : Option String) :
    ∀ d, countKey (items.foldl lookupStep d) k =
      if countMatchId k items = 0 then countKey d k
      else if countKey d k = 0 then 1 else countKey d k := by
  induction items with
  | nil => intro d; simp [countMatchId]
  | cons it rest ih =>
    intro d
    simp only [List.foldl_cons]
    rw [ih (lookupStep d it)]
    by_cases hk : mxIdOf it = k
    · have hcm : countMatchId k (it :: rest) ≠ 0 := by
        simp [countMatchId, List.filter, hk]
      unfold lookupStep
      rw [hk, countKey_dictSet]
      by_cases hrest : countMatchId k rest = 0
      · simp [hrest, hcm]
      · by_cases hd : countKey d k = 0 <;> simp [hrest, hcm, hd]
    · have hcm : countMatchId k (it :: rest) = countMatchId k rest := by
        simp [countMatchId, List.filter, hk]
      unfold lookupStep
      have hk2 : ¬ k = mxIdOf it := fun hh => hk hh.symm
      have hck : countKey (dictSet d (mxIdOf it) it) k = countKey d k := by
        rw [countKey_dictSet]
        simp [hk2]
      rw [hcm, hck]

/-- The `lastMatch` helper agrees with "last element of the walk that
carries the id", phrased via `List.filter` and `List.getLast?`. -/
theorem lastMatch_eq_getLast (k : Option String) (items : List MxTag) :
    lastMatch k items = (items.filter (fun it => decide (mxIdOf it = k))).getLast? := by
  induction items with
  | nil => rfl
  | cons it rest ih =>
    by_cases hk : mxIdOf it = k
    · rw [List.filter_cons_of_pos (by simp [hk])]
      cases hfl : rest.filter (fun it => decide (mxIdOf it = k)) with
      | nil =>
        have h1 : lastMatch k rest = none := by rw [ih, hfl]; rfl
        simp [lastMatch, h1, hk]
      | cons x xs =>
        cases hgl : (x :: xs).getLast? with
        | none => exact absurd (List.getLast?_eq_none_iff.mp hgl) (by simp)
        | some y =>
          have h1 : lastMatch k rest = some y := by rw [ih, hfl, hgl]
          rw [List.getLast?_cons_cons, hgl]
          simp [lastMatch, h1]
    · rw [List.filter_cons_of_neg (by simp [hk]), ← ih]
      cases hr : lastMatch k rest with
      | some x => simp [lastMatch, hr]
      | none => simp [lastMatch, hr, hk]

/-- C1.  The round trip `_mxDecodeBlock(_mxEncodeBlock(x)) == x` FAILS for
every input text `x`: `_mxEncodeBlock` hands the percent-encoded `str` to
`zlib.compress`, which requires a bytes-like object, so every call raises
`TypeError` and the composition never returns `x`. -/
theorem mxEncodeBlock_always_typeError (s : String) :
    mxEncodeBlock s = .error .typeError
    ∧ mxRoundTrip s = .error .typeError
    ∧ mxRoundTrip s ≠ .ok s :=
  ⟨rfl, rfl, fun h => Except.noConfusion h⟩

/-- C2 (amended).  After the index-building loop of `_relinkAll`, each
declared id has exactly one table entry, and lookup of that id returns the
LAST walked element carrying it. -/
theorem buildLookup_exactly_once_last_wins (t : FileTree) (i : String) :
    countKey (buildLookup t) (some i) =
      (if countMatchId (some i) (walkFileTree t) = 0 then 0 else 1)
    ∧ dictLookup (buildLookup t) (some i) =
      ((walkFileTree t).filter (fun it => decide (mxIdOf it = some i))).getLast? := by
  constructor
  · rw [buildLookup, countKey_foldl]
    by_cases h : countMatchId (some i) (walkFileTree t) = 0 <;> simp [h, countKey]
  · rw [buildLookup, dictLookup_foldl, lastMatch_eq_getLast]
    cases ((walkFileTree t).filter (fun it => decide (mxIdOf it = some i))).getLast? <;>
      simp [dictLookup]

/-- C2 (counterexample).  An element with NO `id` attribute nevertheless
receives a table entry: the loop executes `_itemLookup[item.id]=item` with
`item.id` equal to `None`, so an id-less document root is indexed under the
`None` key — contradicting "no element lacking an id has an entry in the
table". -/
theorem buildLookup_indexes_idless_element :
    buildLookup (.node exTagNoId []) = [(none, exTagNoId)] ∧ mxIdOf exTagNoId = none :=
  ⟨rfl, rfl⟩

/-- C3 (amended).  An element whose `parent` attribute does not resolve in
the id table is silently skipped by the relink pass: its parent resolves to
`None` and it is appended to no element's `_children` list; no exception is
raised (the embedded pass is total and `src/drawio.py` defines no
`StructuralIntegrityError`). -/
theorem relink_dangling_parent_dropped (t : FileTree) (it : MxTag) (pid : String)
    (hp : attribGet it.attrib "parent" = some pid)
    (hlk : dictLookup (buildLookup t) (some pid) = none) :
    resolveParent (buildLookup t) it = none
    ∧ ∀ q : MxTag, (q, it) ∉ relinkLinks t := by
  have hres : resolveParent (buildLookup t) it = none := by
    simp [resolveParent, hp, hlk]
  refine ⟨hres, fun q hmem => ?_⟩
  rw [relinkLinks] at hmem
  obtain ⟨a, _, hfa⟩ := List.mem_filterMap.mp hmem
  cases hr : resolveParent (buildLookup t) a with
  | none => rw [hr] at hfa; exact Option.noConfusion hfa
  | some p =>
    rw [hr] at hfa
    have hpair : p = q ∧ a = it := by
      have := Option.some.inj hfa
      exact ⟨congrArg Prod.fst this, congrArg Prod.snd this⟩
    rw [hpair.2] at hr
    rw [hres] at hr
    exact Option.noConfusion hr

/-- C3 (witness).  The dangling-parent document: one element with
`parent="999"` and no element of id `"999"`. -/
theorem relink_dangling_parent_dropped_witness :
    resolveParent (buildLookup tDangling) tagDangling = none
    ∧ ∀ q : MxTag, (q, tagDangling) ∉ relinkLinks tDangling :=
  relink_dangling_parent_dropped tDangling tagDangling "999" rfl rfl

/-- C3 (counterexample).  On the dangling-parent document the relink pass
completes normally with an empty link list — the logical edge is silently
dropped, no `StructuralIntegrityError` (or any error) is raised. -/
theorem relink_dangling_completes_silently :
    relinkLinks tDangling = []
    ∧ attribGet tagDangling.attrib "parent" = some "999"
    ∧ dictLookup (buildLookup tDangling) (some "999") = none :=
  ⟨rfl, rfl, rfl⟩

/-- Both nodes of the logical two-cycle defeat EVERY recursion bound once
`treeStr` is entered with a visited set not containing them: the source
never adds a node to `ignore`, so the recursion A to B to A never reaches a
base case. -/
theorem treeStr_cycle_aux (fuel : Nat) :
    ∀ indent,
      treeStr (nameOfHandle wCycle) (childrenGet wCycle) fuel 0 indent (some []) = none
      ∧ treeStr (nameOfHandle wCycle) (childrenGet wCycle) fuel 1 indent (some []) = none := by
  induction fuel with
  | zero => intro indent; exact ⟨rfl, rfl⟩
  | succ n ih =>
    intro indent
    have h0 := (ih (indent ++ "   ")).1
    have h1 := (ih (indent ++ "   ")).2
    constructor
    · have hc : childrenGet wCycle 0 = [1] := rfl
      simp only [treeStr, hc, h1, List.map_cons, List.map_nil]
      rfl
    · have hc : childrenGet wCycle 1 = [0] := rfl
      simp only [treeStr, hc, h0, List.map_cons, List.map_nil]
      rfl

/-- C4.  On a document whose elements A and B name each other as logical
parents, `treeStr` does NOT emit a `'...'` marker and terminate the
traversal of the cycle: (i) any call that actually recurses (its `ignore`
set is non-`None` and does not contain the node) exhausts every fuel bound
— the Python original recurses without terminating, since no node is ever
added to the visited set; (ii) the default top-level call (`ignore=None`)
terminates only because it never recurses at all, rendering the root line
alone; (iii) the cyclic `_children` lists of the scenario are exactly what
`_relinkAll` produces on such a document. -/
theorem treeStr_cycle_no_marker :
    (∀ fuel indent,
      treeStr (nameOfHandle wCycle) (childrenGet wCycle) fuel 0 indent (some []) = none)
    ∧ (∀ fuel indent,
      treeStr (nameOfHandle wCycle) (childrenGet wCycle) (fuel + 1) 0 indent none
        = some (indent ++ "mxCell"))
    ∧ relinkLinks (.node ⟨"mxCell", [("id", "a"), ("parent", "b")]⟩
        [.node ⟨"mxCell", [("id", "b"), ("parent", "a")]⟩ []])
      = [(⟨"mxCell", [("id", "b"), ("parent", "a")]⟩,
          ⟨"mxCell", [("id", "a"), ("parent", "b")]⟩),
         (⟨"mxCell", [("id", "a"), ("parent", "b")]⟩,
          ⟨"mxCell", [("id", "b"), ("parent", "a")]⟩)] := by
  refine ⟨fun fuel indent => (treeStr_cycle_aux fuel indent).1, ?_, ?_⟩
  · intro fuel indent
    have hn : nameOfHandle wCycle 0 = "mxCell" := rfl
    simp [treeStr, hn, pyJoin]
  · rfl

/-- C5.  When the input text contains NO occurrence of the marker
`'<diagram'`, the envelope step of `assign` (with the default
`keepMxfileTag=True`) does not pass the text through unchanged: the loop
unconditionally appends `'<diagram'` after the first chunk, so the parser
receives `s ++ '<diagram'`. -/
theorem envelope_zero_marker_appends_tag (s : String)
    (h : pySplit s "<diagram" = [s]) :
    assignEnvelopeText true s = .ok (s ++ "<diagram") := by
  unfold assignEnvelopeText
  rw [h]
  simp [envRest, pyJoin, String.append_empty]

/-- C5 (witness).  A marker-free document: the parser input gains a
spurious trailing `'<diagram'` and differs from the original text. -/
theorem envelope_zero_marker_appends_tag_witness :
    pySplit "<mxfile></mxfile>" "<diagram" = ["<mxfile></mxfile>"]
    ∧ assignEnvelopeText true "<mxfile></mxfile>"
        = .ok ("<mxfile></mxfile>" ++ "<diagram")
    ∧ "<mxfile></mxfile>" ++ "<diagram" ≠ "<mxfile></mxfile>" := by
  refine ⟨rfl, envelope_zero_marker_appends_tag "<mxfile></mxfile>" rfl, by decide⟩

/-- C6.  The `root` accessor never walks the parent chain: `__init__` seeds
`_root` with the item itself, so the `if self._root is None` guard never
fires and `root` returns the item itself — for ANY item whose state has the
`__init__`-established cache (and regardless of its `parent` attribute or
the id table). -/
theorem root_returns_self (lookup : String → Option Nat) (w : List MxRec)
    (self : Nat) (st : MxRec) (fuel : Nat)
    (hst : w[self]? = some st) (hroot : st.rootCache = some self) :
    rootGet lookup (fuel + 1) self w = (some self, w) := by
  simp [rootGet, hst, hroot]

/-- C6 (witness).  B (`id="b"`, `parent="a"`) resolves its `root` to B
itself, NOT to the chain top A (handle 0). -/
theorem root_returns_self_witness :
    rootGet lkRoot 5 1 wRoot = (some 1, wRoot)
    ∧ rootGet lkRoot 5 1 wRoot ≠ (some 0, wRoot) := by
  have h := root_returns_self lkRoot wRoot 1 recChildB 4 rfl rfl
  refine ⟨h, ?_⟩
  rw [h]
  decide

/-- C7.  The `parent` property re-checks its cache on every access: when
the cached parent's id no longer equals the current `parent` attribute it
recomputes through the id table (and stores the result); when the id still
matches it returns the cached handle with the world untouched — and the
result then does not depend on the lookup table at all. -/
theorem parent_cache_recheck (w : List MxRec) (self : Nat) (st : MxRec)
    (c : Nat) (pid : String)
    (hst : w[self]? = some st) (hc : st.parentCache = some c)
    (hp : attribGet st.attrib "parent" = some pid) :
    (idOfHandle w c ≠ some pid →
      ∀ lookup : String → Option Nat,
        parentGet lookup w self
          = (lookup pid, w.set self { st with parentCache := lookup pid }))
    ∧ (idOfHandle w c = some pid →
      ∀ lookup : String → Option Nat, parentGet lookup w self = (some c, w)) := by
  constructor
  · intro hne lookup
    simp [parentGet, hst, hc, hp, hne, parentRecompute]
  · intro heq lookup
    simp [parentGet, hst, hc, hp, heq]

/-- C7 (witness).  Element `c` cached A (handle 0) but its `parent`
attribute was mutated to `"b"`: the next access returns B (handle 1).
Element `d` caches B whose id still matches: the cache is returned and the
world is unchanged. -/
theorem parent_cache_recheck_witness :
    (parentGet lkPar wPar 2).1 = some 1 ∧ parentGet lkPar wPar 3 = (some 1, wPar) := by
  constructor
  · have h := (parent_cache_recheck wPar 2 recParC 0 "b" rfl rfl rfl).1 (by decide) lkPar
    rw [h]
    rfl
  · exact (parent_cache_recheck wPar 3 recParD 1 "b" rfl rfl rfl).2 rfl lkPar

/-- C8 (amended).  Decode failures are the underlying library exceptions
and are distinct per stage: a truncated base64 input fails with
`binascii.Error`, a corrupt deflate stream (reserved block type) with
`zlib.error`, non-UTF-8 inflated bytes with `UnicodeDecodeError`; no
`MalformedEncodingError` class exists anywhere in the module, and the
percent-decoding stage itself never fails. -/
theorem decode_stage_errors :
    mxDecodeBlock (.str "AAA") = .error .binasciiError
    ∧ mxDecodeBlock (.bytes (b64encode [7])) = .error .zlibError
    ∧ mxDecodeBlock (.bytes (b64encode [1, 1, 0, 254, 255, 255]))
        = .error .unicodeDecodeError
    ∧ unquote "%zz" = "%zz"
    ∧ PyErr.binasciiError ≠ PyErr.zlibError
    ∧ PyErr.binasciiError ≠ PyErr.unicodeDecodeError
    ∧ PyErr.zlibError ≠ PyErr.unicodeDecodeError := by
  refine ⟨rfl, rfl, rfl, rfl, by decide, by decide, by decide⟩

/-- C8 (counterexample).  "Invalid percent-encoding produces a decode
error" is FALSE: a block whose inflated payload is the invalid escape
`"%zz"` decodes successfully — `unquote` passes bad escapes through — so
the percent stage yields no error at all; and the truncated-base64 failure
is the raw `binascii.Error`, not a `MalformedEncodingError` (the module
defines no such class). -/
theorem decode_invalid_percent_no_error :
    mxDecodeBlock (.bytes (b64encode [1, 3, 0, 252, 255, 37, 122, 122])) = .ok "%zz"
    ∧ mxDecodeBlock (.str "AAA") = .error .binasciiError :=
  ⟨rfl, rfl⟩

/-- C9.  `MxItem.__init__` assigns `_xmlTag` directly and never invokes the
`xmlTag` setter, so the item built by `assign` has no physical children:
`walkFileTree` yields exactly the tree root and the id table built from it
has exactly one entry (hence at most one), whatever the underlying xml
tree looks like. -/
theorem assign_builds_single_item_tree (x : XmlTree) :
    walkFileTree (assignItemTree x) = [xmlTagOf x]
    ∧ buildLookup (assignItemTree x) = [(mxIdOf (xmlTagOf x), xmlTagOf x)]
    ∧ (buildLookup (assignItemTree x)).length ≤ 1 := by
  cases x with
  | node t cs =>
    refine ⟨?_, ?_, ?_⟩ <;>
      simp [assignItemTree, mkItemInit, xmlTagOf, walkFileTree, walkForest,
        buildLookup, lookupStep, dictSet]

/-- C10.  For an element named `'root'` with empty `_children` and
non-empty `_fileChildren`, the `children` property returns the (non-empty)
physical children, while `self[0]` raises `IndexError` — `__getitem__`
indexes the raw `_children` list and bypasses the root fallback — and
therefore `DrawIoFile.treeStr`, which evaluates `self._itemTree[0]`,
raises `IndexError` instead of rendering a tree. -/
theorem children_root_fallback_vs_getitem (w : List MxRec) (self : Nat) (st : MxRec)
    (hst : w[self]? = some st) (hname : nameOf st = "root")
    (hcc : st.childrenCache = []) (hfc : st.fileChildren ≠ []) :
    childrenGet w self = st.fileChildren
    ∧ childrenGet w self ≠ []
    ∧ getitemIdx w self 0 = .error .indexError
    ∧ ∀ fuel indent ignore, drawIoTreeStr w self fuel indent ignore = .error .indexError := by
  have h1 : childrenGet w self = st.fileChildren := by
    simp [childrenGet, hst, hcc, hname]
  have h2 : getitemIdx w self 0 = .error .indexError := by
    simp [getitemIdx, hst, hcc]
  refine ⟨h1, ?_, h2, fun fuel indent ignore => ?_⟩
  · rw [h1]; exact hfc
  · simp [drawIoTreeStr, h2]

/-- C10 (witness).  The `<root>` item with physical child handle 1:
`children` yields `[1]` while `item[0]` and `DrawIoFile.treeStr` raise
`IndexError`. -/
theorem children_root_fallback_vs_getitem_witness :
    childrenGet wRootDoc 0 = [1]
    ∧ getitemIdx wRootDoc 0 0 = .error .indexError
    ∧ drawIoTreeStr wRootDoc 0 3 "" none = .error .indexError := by
  have h := children_root_fallback_vs_getitem wRootDoc 0 recRootNode rfl rfl rfl
    (by decide)
  exact ⟨h.1, h.2.2.1, h.2.2.2 3 "" none⟩
